import Mathlib

/-
Verification development for the clustering-and-coherence pipeline of
src/cluster_synonymy_scores.py.  Pure numeric code is embedded over ℚ
(numpy float64 arithmetic modelled exactly on the rationals); fallible
numpy operations (reduction over an empty array, the 0/0 NaN produced
when all scores are equal) are modelled with Option, `none` standing
for the NaN / error outcome.  The scipy calls (sch.linkage 'average',
sch.fcluster criterion='distance') are embedded as executable Lean
functions implementing average-linkage agglomerative clustering and
the distance-threshold tree cut.
-/

namespace FreeRes

/-- Rounds a rational to 6 decimal places, modelling `ndarray.round(decimals=6)`
on line 66 of cluster_synonymy_scores.py.  (numpy rounds ties to even, Lean's
`round` rounds ties up; no statement below depends on a tie.) -/
def round6 (q : ℚ) : ℚ := (round (q * 1000000) : ℚ) / 1000000

/-- Minimum of a score list, modelling `np.min`; the empty case (where numpy
raises) is given a dummy value and guarded by the caller. -/
def listMin : List ℚ → ℚ
  | [] => 0
  | h :: t => t.foldl min h

/-- Maximum of a score list, modelling `np.max`. -/
def listMax : List ℚ → ℚ
  | [] => 0
  | h :: t => t.foldl max h

/-- Peak-to-peak range, modelling `np.ptp` (max minus min). -/
def np_ptp (l : List ℚ) : ℚ := listMax l - listMin l

/-- Embeds `normalize_array` (lines 64-67): subtract the minimum, divide by the
peak-to-peak range, round to 6 decimals.  When the range is 0 every entry of
the numpy result is the NaN 0/0, and on an empty array `np.min` raises; both
outcomes are modelled as `none`. -/
def normalize_array (scores_array : List ℚ) : Option (List ℚ) :=
  if scores_array.isEmpty then none
  else if np_ptp scores_array = 0 then none
  else some (scores_array.map (fun s =>
    round6 ((s - listMin scores_array) / np_ptp scores_array)))

/-- Embeds the array-building part of `make_arrays` (lines 49-61): the distance
array is `1 - scores_norm` elementwise; the label array passes through.  CSV
reading is out of scope. -/
def make_arrays (scores : List ℚ) (labels : List String) :
    Option (List ℚ × List String) :=
  (normalize_array scores).map (fun ns => (ns.map (fun v => 1 - v), labels))

/-- Embeds `check_expected_distances_count` (lines 70-74): the serialized upper
triangle of an n×n matrix has n(n-1)/2 entries. -/
def check_expected_distances_count (labels_array : List String) : ℕ :=
  labels_array.length * (labels_array.length - 1) / 2

/-- An active cluster during agglomeration: its scipy identifier and the
original leaves it contains. -/
structure Cluster where
  id : ℕ
  members : List ℕ
  deriving DecidableEq, Repr, Inhabited

/-- One row of the scipy linkage matrix: the two cluster identifiers merged,
the merge distance, and the size of the resulting cluster. -/
structure MergeRecord where
  idA : ℕ
  idB : ℕ
  dist : ℚ
  size : ℕ
  deriving DecidableEq, Repr, Inhabited

/-- Position of the pair (i, j), i < j, in the row-major serialized upper
triangle of an n×n matrix (the condensed distance format documented at
lines 71-73). -/
def condensedIndex (n i j : ℕ) : ℕ := i * n - i * (i + 1) / 2 + (j - i - 1)

/-- Leaf-to-leaf distance looked up in the condensed distance list. -/
def leafDist (d : List ℚ) (n i j : ℕ) : ℚ :=
  if i = j then 0
  else if i < j then d.getD (condensedIndex n i j) 0
  else d.getD (condensedIndex n j i) 0

/-- Average-linkage distance between two clusters: the mean of all cross-pair
leaf distances. -/
def clusterDist (d : List ℚ) (n : ℕ) (a b : Cluster) : ℚ :=
  (a.members.map (fun x => (b.members.map (fun y => leafDist d n x y)).sum)).sum
    / ((a.members.length : ℚ) * (b.members.length : ℚ))

/-- All index pairs (i, j) with i < j < k, in lexicographic order (the
deterministic tie-break order for merges). -/
def indexPairs (k : ℕ) : List (ℕ × ℕ) :=
  (List.range k).flatMap (fun i =>
    ((List.range k).filter (fun j => i < j)).map (fun j => (i, j)))

/-- Folds over candidate pairs keeping the one with the strictly smaller
objective value, so the first minimizer wins on ties. -/
def pickMin (f : ℕ × ℕ → ℚ) : ℕ × ℕ → List (ℕ × ℕ) → ℕ × ℕ
  | best, [] => best
  | best, q :: rest => pickMin f (if f q < f best then q else best) rest

/-- Selects the pair of positions in the active cluster list whose
average-linkage distance is smallest (first such pair on ties). -/
def selectPair (d : List ℚ) (n : ℕ) (cs : List Cluster) : Option (ℕ × ℕ) :=
  match indexPairs cs.length with
  | [] => none
  | p :: rest => some (pickMin
      (fun q => clusterDist d n (cs.getD q.1 default) (cs.getD q.2 default))
      p rest)

/-- Performs one agglomeration step: merge the two closest active clusters
into a fresh cluster carrying the next synthetic identifier, emitting the
corresponding linkage row. -/
def stepMerge (d : List ℚ) (n : ℕ) (nextId : ℕ) (cs : List Cluster) :
    Option (MergeRecord × List Cluster) :=
  match selectPair d n cs with
  | none => none
  | some (i, j) =>
    let ci := cs.getD i default
    let cj := cs.getD j default
    let dij := clusterDist d n ci cj
    let merged : Cluster := ⟨nextId, ci.members ++ cj.members⟩
    some (⟨ci.id, cj.id, dij, merged.members.length⟩,
      ((cs.eraseIdx j).eraseIdx i) ++ [merged])

/-- Runs agglomeration for the given number of steps, collecting the linkage
rows in merge order. -/
def agglomerate (d : List ℚ) (n : ℕ) :
    ℕ → ℕ → List Cluster → List MergeRecord
  | 0, _, _ => []
  | fuel + 1, nextId, cs =>
    match stepMerge d n nextId cs with
    | none => []
    | some (r, cs2) => r :: agglomerate d n fuel (nextId + 1) cs2

/-- Initial state of the agglomeration: each of the n leaves is a singleton
cluster whose identifier is its leaf index. -/
def initClusters (n : ℕ) : List Cluster :=
  (List.range n).map (fun i => ⟨i, [i]⟩)

/-- Embeds `sch.linkage(distances_array, 'average')` (line 79): average-linkage
hierarchical agglomerative clustering over the condensed distance list for n
leaves (scipy recovers n from the condensed length; here it is a parameter
subject to the length-equals-n(n-1)/2 precondition). -/
def sch_linkage (d : List ℚ) (n : ℕ) : List MergeRecord :=
  agglomerate d n (n - 1) n (initClusters n)

/-- Clamps one linkage row as the loop at lines 81-83 does: a negative merge
distance is replaced by exactly 0, any other row is left untouched. -/
def clampRecord (r : MergeRecord) : MergeRecord :=
  if r.dist < 0 then { r with dist := 0 } else r

/-- Embeds `build_linkage_matrix` (lines 77-84): run the linkage, then clamp
every negative merge distance to 0 before returning. -/
def build_linkage_matrix (d : List ℚ) (n : ℕ) : List MergeRecord :=
  (sch_linkage d n).map clampRecord

/-- Relabels every leaf currently assigned to either merged cluster to the
fresh cluster identifier. -/
def applyMerge (r : MergeRecord) (newId : ℕ) (assign : List ℕ) : List ℕ :=
  assign.map (fun c => if c = r.idA ∨ c = r.idB then newId else c)

/-- Replays the linkage rows in merge order over a leaf-to-cluster assignment,
applying only the merges whose distance is at or below the cutoff. -/
def replayMerges (cutoff : ℚ) :
    List MergeRecord → ℕ → List ℕ → List ℕ
  | [], _, assign => assign
  | r :: rs, nextId, assign =>
    replayMerges cutoff rs (nextId + 1)
      (if r.dist ≤ cutoff then applyMerge r nextId assign else assign)

/-- Embeds `sch.fcluster(linkage_matrix, cutoff, criterion='distance')`
(line 100): cut the merge tree at the cutoff distance, assigning each of the
n leaves to exactly one flat cluster. -/
def sch_fcluster (Z : List MergeRecord) (cutoff : ℚ) (n : ℕ) : List ℕ :=
  replayMerges cutoff Z n (List.range n)

/-- Membership counts per cluster (lines 101, 105-108): one (cluster, count)
entry per distinct cluster identifier in the assignment.  np.unique sorts the
identifiers while dedup keeps first-occurrence order; no statement below
depends on the order of the entries. -/
def cluster_membership_counts (clusters : List ℕ) : List (ℕ × ℕ) :=
  clusters.dedup.map (fun v => (v, clusters.count v))

/-- Embeds the membership and percentage computation of
`calculate_cluster_stats` (lines 96-113): cut the tree, count members per
cluster, and set pct = 100 * (c_max / c_sum).  The cophenetic correlation
coefficient needs real square roots and is treated as an opaque input to the
formatter, exactly as it is a plain argument there in the source. -/
def calculate_cluster_stats (Z : List MergeRecord) (cutoff : ℚ) (n : ℕ) :
    List (ℕ × ℕ) × ℚ :=
  let clusters := sch_fcluster Z cutoff n
  let membership := cluster_membership_counts clusters
  let c_max := (membership.map (fun kv => kv.2)).foldl max 0
  let c_sum := (membership.map (fun kv => kv.2)).sum
  (membership, 100 * ((c_max : ℚ) / (c_sum : ℚ)))

/-- Embeds `classify_pass_fail` (lines 145-148): the literal string is
"pass" exactly when the percentage is at least 75, otherwise "fail". -/
def classify_pass_fail (pct : ℚ) : String :=
  if 75 ≤ pct then "pass" else "fail"

/-- Divider line used by the statistics printout. -/
def statsDivider : String :=
  "---------------------------------------------------------------------------------\n"

/-- First maximal entry of the membership table by count, modelling
`max(cluster_membership.items(), key=lambda x: x[1])` on line 137. -/
def maxByValue (items : List (ℕ × ℕ)) : ℕ × ℕ :=
  items.foldl (fun best kv => if best.2 < kv.2 then kv else best)
    (items.headD (0, 0))

/-- Everything `format_cluster_stats` emits before the verdict line: header,
cophenetic coefficient, per-cluster counts, and the largest-cluster summary
sentence (lines 131-139).  Numeric rendering stands in for Python str(). -/
def statsBody (cophenetic_coefficient : ℚ)
    (cluster_membership : List (ℕ × ℕ)) (pct : ℚ) : String :=
  statsDivider
    ++ "Agglomerative Hierarchical Clustering Statistics\n" ++ statsDivider
    ++ "Cophenectic correlation coefficient: "
    ++ toString cophenetic_coefficient ++ "\n"
    ++ "Cluster: Count\n"
    ++ String.join (cluster_membership.map (fun kv =>
        toString kv.1 ++ ": " ++ toString kv.2 ++ "\n"))
    ++ "Cluster " ++ toString (maxByValue cluster_membership).1 ++ " with "
    ++ toString (maxByValue cluster_membership).2 ++ " members has "
    ++ toString pct ++ "% of the membership.\n"

/-- Embeds `format_cluster_stats` (lines 129-142): the statistics body
followed by the verdict line, whose pass/fail token comes from
`classify_pass_fail`. -/
def format_cluster_stats (cophenetic_coefficient : ℚ)
    (cluster_membership : List (ℕ × ℕ)) (pct : ℚ) : String :=
  statsBody cophenetic_coefficient cluster_membership pct
    ++ "Cluster coherence test: " ++ classify_pass_fail pct

/-- Path concatenation as `os.path.join` performs it for the arguments the
script passes (a directory and a relative path). -/
def path_join (a b : String) : String := a ++ "/" ++ b

/-- Embeds `make_output_filenames` (lines 151-159): route the dendrogram and
statistics files to the Pass directories when pct is at least 66, and to the
Fail directories otherwise. -/
def make_output_filenames (clustering_dir : String) (pct : ℚ)
    (dendro_name : String) : String × String :=
  if 66 ≤ pct then
    (path_join clustering_dir ("Dendrograms/Pass/" ++ dendro_name ++ ".png"),
     path_join clustering_dir ("Statistics/Pass/" ++ dendro_name ++ ".txt"))
  else
    (path_join clustering_dir ("Dendrograms/Fail/" ++ dendro_name ++ ".png"),
     path_join clustering_dir ("Statistics/Fail/" ++ dendro_name ++ ".txt"))

/-- Result of processing one label set in the main loop: either the skip
message printed on a shape mismatch (no linkage, statistics or files are
produced), or the routed output filenames together with the percentage. -/
inductive PairResult where
  | skipped (message : String)
  | written (dendro_file : String) (stats_file : String) (pct : ℚ)
  deriving DecidableEq, Repr

/-- Embeds the body of the per-file loop in `__main__` (lines 170-211): build
the distance array, check the expected triangular count against its length
(which always equals the score count), and either emit the skip message of
lines 176-179 or run the clustering pipeline and route the output files.
Plot rendering and file writes are out-of-scope I/O. -/
def processPair (clustering_dir : String) (cutoff : ℚ) (scores_file : String)
    (dendro_name : String) (scores : List ℚ) (labels : List String) :
    PairResult :=
  let expected := check_expected_distances_count labels
  if expected ≠ scores.length then
    .skipped ("The number of values in the " ++ scores_file
      ++ " distances list is " ++ toString scores.length
      ++ ", but it should be " ++ toString expected ++ ".")
  else
    let distances := ((normalize_array scores).getD []).map (fun v => 1 - v)
    let Z := build_linkage_matrix distances labels.length
    let stats := calculate_cluster_stats Z cutoff labels.length
    let files := make_output_filenames clustering_dir stats.2 dendro_name
    .written files.1 files.2 stats.2

/-- Embeds the `for i in range(len(scores_files))` loop of `__main__`: each
input pair is processed in order, a skipped pair contributing only its
message and every other pair its routed output. -/
def mainLoop (clustering_dir : String) (cutoff : ℚ) :
    List (String × String × List ℚ × List String) → List PairResult
  | [] => []
  | (scores_file, dendro_name, scores, labels) :: rest =>
    processPair clustering_dir cutoff scores_file dendro_name scores labels
      :: mainLoop clustering_dir cutoff rest

/-! Helper lemmas about rounding. -/

lemma round_le_round {x y : ℚ} (h : x ≤ y) : round x ≤ round y := by
  rw [round_eq, round_eq]
  exact Int.floor_mono (by linarith)

lemma round6_zero : round6 0 = 0 := by
  simp [round6]

lemma round6_one : round6 1 = 1 := by
  rw [round6, show ((1 : ℚ) * 1000000) = ((1000000 : ℤ) : ℚ) by norm_num,
    round_intCast]
  norm_num

lemma round6_nonneg {q : ℚ} (h : 0 ≤ q) : 0 ≤ round6 q := by
  have h1 : round (0 : ℚ) ≤ round (q * 1000000) :=
    round_le_round (by nlinarith)
  rw [round_zero] at h1
  rw [round6]
  positivity

lemma round6_le_one {q : ℚ} (h : q ≤ 1) : round6 q ≤ 1 := by
  have h1 : round (q * 1000000) ≤ round (((1000000 : ℤ) : ℚ)) :=
    round_le_round (by push_cast; nlinarith)
  rw [round_intCast] at h1
  rw [round6, div_le_one (by norm_num)]
  exact_mod_cast h1

/-! Helper lemmas about list minimum and maximum. -/

lemma foldl_min_le_init : ∀ (l : List ℚ) (a : ℚ), l.foldl min a ≤ a
  | [], a => le_refl a
  | b :: t, a => le_trans (foldl_min_le_init t (min a b)) (min_le_left a b)

lemma foldl_min_le_mem : ∀ (l : List ℚ) (a s : ℚ), s ∈ l → l.foldl min a ≤ s
  | b :: t, a, s, h => by
    rcases List.mem_cons.mp h with rfl | hs
    · exact le_trans (foldl_min_le_init t (min a s)) (min_le_right a s)
    · exact foldl_min_le_mem t (min a b) s hs

lemma init_le_foldl_max : ∀ (l : List ℚ) (a : ℚ), a ≤ l.foldl max a
  | [], a => le_refl a
  | b :: t, a => le_trans (le_max_left a b) (init_le_foldl_max t (max a b))

lemma mem_le_foldl_max : ∀ (l : List ℚ) (a s : ℚ), s ∈ l → s ≤ l.foldl max a
  | b :: t, a, s, h => by
    rcases List.mem_cons.mp h with rfl | hs
    · exact le_trans (le_max_right a s) (init_le_foldl_max t (max a s))
    · exact mem_le_foldl_max t (max a b) s hs

lemma listMin_le {scores : List ℚ} {s : ℚ} (h : s ∈ scores) :
    listMin scores ≤ s := by
  cases scores with
  | nil => cases h
  | cons hd t =>
    rcases List.mem_cons.mp h with rfl | hs
    · exact foldl_min_le_init t s
    · exact foldl_min_le_mem t hd s hs

lemma le_listMax {scores : List ℚ} {s : ℚ} (h : s ∈ scores) :
    s ≤ listMax scores := by
  cases scores with
  | nil => cases h
  | cons hd t =>
    rcases List.mem_cons.mp h with rfl | hs
    · exact init_le_foldl_max t s
    · exact mem_le_foldl_max t hd s hs

lemma listMin_lt_listMax {scores : List ℚ} {a b : ℚ} (ha : a ∈ scores)
    (hb : b ∈ scores) (hab : a ≠ b) : listMin scores < listMax scores := by
  rcases lt_or_gt_of_ne hab with h | h
  · exact lt_of_le_of_lt (listMin_le ha) (lt_of_lt_of_le h (le_listMax hb))
  · exact lt_of_le_of_lt (listMin_le hb) (lt_of_lt_of_le h (le_listMax ha))

lemma foldl_min_const : ∀ (l : List ℚ) (a : ℚ), (∀ x ∈ l, x = a) →
    l.foldl min a = a
  | [], _, _ => rfl
  | b :: t, a, h => by
    have hb : b = a := h b (List.mem_cons_self b t)
    subst hb
    rw [List.foldl_cons, min_self]
    exact foldl_min_const t b (fun x hx => h x (List.mem_cons_of_mem b hx))

lemma foldl_max_const : ∀ (l : List ℚ) (a : ℚ), (∀ x ∈ l, x = a) →
    l.foldl max a = a
  | [], _, _ => rfl
  | b :: t, a, h => by
    have hb : b = a := h b (List.mem_cons_self b t)
    subst hb
    rw [List.foldl_cons, max_self]
    exact foldl_max_const t b (fun x hx => h x (List.mem_cons_of_mem b hx))

/-! Helper lemmas about the pair-selection and merge steps. -/

lemma pickMin_mem (f : ℕ × ℕ → ℚ) :
    ∀ (l : List (ℕ × ℕ)) (p : ℕ × ℕ), pickMin f p l ∈ p :: l
  | [], p => List.mem_singleton.mpr rfl
  | q :: rest, p => by
    rw [pickMin]
    by_cases h : f q < f p
    · rw [if_pos h]
      exact List.mem_cons_of_mem p (pickMin_mem f rest q)
    · rw [if_neg h]
      have := pickMin_mem f rest p
      rcases List.mem_cons.mp this with h2 | h2
      · exact List.mem_cons.mpr (Or.inl h2)
      · exact List.mem_cons.mpr (Or.inr (List.mem_cons_of_mem q h2))

lemma mem_indexPairs {k : ℕ} {p : ℕ × ℕ} :
    p ∈ indexPairs k ↔ p.1 < p.2 ∧ p.2 < k := by
  obtain ⟨i, j⟩ := p
  simp only [indexPairs, List.mem_flatMap, List.mem_map, List.mem_filter,
    List.mem_range, decide_eq_true_eq, Prod.mk.injEq]
  constructor
  · rintro ⟨x, hx, y, ⟨hy, hxy⟩, rfl, rfl⟩
    exact ⟨hxy, hy⟩
  · rintro ⟨hij, hj⟩
    exact ⟨i, lt_trans hij hj, j, ⟨hj, hij⟩, rfl, rfl⟩

lemma selectPair_eq_some {d : List ℚ} {n : ℕ} {cs : List Cluster}
    (h : 2 ≤ cs.length) :
    ∃ i j, selectPair d n cs = some (i, j) ∧ i < j ∧ j < cs.length := by
  have hmem01 : ((0, 1) : ℕ × ℕ) ∈ indexPairs cs.length :=
    mem_indexPairs.mpr ⟨Nat.zero_lt_one, h⟩
  rw [selectPair]
  cases hip : indexPairs cs.length with
  | nil => rw [hip] at hmem01; cases hmem01
  | cons p rest =>
    set f := fun q : ℕ × ℕ =>
      clusterDist d n (cs.getD q.1 default) (cs.getD q.2 default) with hf
    have hmem : pickMin f p rest ∈ p :: rest := pickMin_mem f rest p
    rw [← hip] at hmem
    have hbound := mem_indexPairs.mp hmem
    exact ⟨(pickMin f p rest).1, (pickMin f p rest).2, rfl, hbound.1, hbound.2⟩

lemma stepMerge_some {d : List ℚ} {n nid : ℕ} {cs : List Cluster}
    (h : 2 ≤ cs.length) :
    ∃ r cs2, stepMerge d n nid cs = some (r, cs2)
      ∧ cs2.length = cs.length - 1 := by
  obtain ⟨i, j, hsel, hij, hj⟩ := @selectPair_eq_some d n cs h
  rw [stepMerge, hsel]
  refine ⟨_, _, rfl, ?_⟩
  rw [List.length_append, List.length_eraseIdx_of_lt
    (by rw [List.length_eraseIdx_of_lt hj]; omega),
    List.length_eraseIdx_of_lt hj]
  simp only [List.length_singleton]
  omega

lemma agglomerate_length {d : List ℚ} {n : ℕ} :
    ∀ (fuel nid : ℕ) (cs : List Cluster), fuel + 1 ≤ cs.length →
      (agglomerate d n fuel nid cs).length = fuel
  | 0, _, _, _ => rfl
  | fuel + 1, nid, cs, h => by
    obtain ⟨r, cs2, hstep, hlen⟩ :=
      @stepMerge_some d n nid cs (by omega)
    rw [agglomerate, hstep, List.length_cons,
      agglomerate_length fuel (nid + 1) cs2 (by omega)]

lemma replayMerges_length {cutoff : ℚ} :
    ∀ (rs : List MergeRecord) (nid : ℕ) (assign : List ℕ),
      (replayMerges cutoff rs nid assign).length = assign.length
  | [], _, _ => rfl
  | r :: rs, nid, assign => by
    rw [replayMerges, replayMerges_length rs]
    by_cases h : r.dist ≤ cutoff
    · rw [if_pos h, applyMerge, List.length_map]
    · rw [if_neg h]

/-! Evaluation of the pipeline on the worked example of the specification:
LabelSet [a, b, c] with ScoreSet [0.9, 0.9, 0.1] (pair order ab, ac, bc)
at the default cutoff 0.7275 = 291/400. -/

lemma exampleArrays_eval :
    make_arrays [9/10, 9/10, 1/10] ["a", "b", "c"]
      = some ([0, 0, 1], ["a", "b", "c"]) := by
  norm_num [make_arrays, normalize_array, np_ptp, listMin, listMax, round6,
    round_eq]

lemma exampleLinkage_eval :
    build_linkage_matrix [0, 0, 1] 3
      = [⟨0, 1, 0, 2⟩, ⟨2, 3, 1/2, 3⟩] := by
  norm_num [build_linkage_matrix, sch_linkage, initClusters, agglomerate,
    stepMerge, selectPair, indexPairs, pickMin, clusterDist, leafDist,
    condensedIndex, clampRecord, List.range_succ]

lemma exampleFcluster_eval :
    sch_fcluster (build_linkage_matrix [0, 0, 1] 3) (291/400) 3
      = [4, 4, 4] := by
  rw [exampleLinkage_eval]
  norm_num [sch_fcluster, replayMerges, applyMerge, List.range_succ]

lemma exampleStats_eval :
    calculate_cluster_stats (build_linkage_matrix [0, 0, 1] 3) (291/400) 3
      = ([(4, 3)], 100) := by
  rw [calculate_cluster_stats, exampleFcluster_eval]
  norm_num [cluster_membership_counts, List.dedup, List.count, List.countP,
    List.countP.go]

/-! Claim theorems. -/

/-- C1: for every label set processed, the coherence verdict printed in the
statistics report is the literal string "pass" if and only if the
largest-cluster percentage is at least 75, and "fail" otherwise; the report
text ends with exactly that verdict token. -/
theorem verdict_pass_iff_pct_ge_75 (coph : ℚ) (membership : List (ℕ × ℕ))
    (pct : ℚ) :
    (classify_pass_fail pct = "pass" ↔ 75 ≤ pct)
    ∧ (classify_pass_fail pct = "fail" ↔ pct < 75)
    ∧ format_cluster_stats coph membership pct
        = statsBody coph membership pct ++ "Cluster coherence test: "
            ++ classify_pass_fail pct := by
  refine ⟨?_, ?_, rfl⟩
  · by_cases h : 75 ≤ pct
    · simp [classify_pass_fail, h]
    · simp only [classify_pass_fail, if_neg h]
      exact iff_of_false (by decide) h
  · by_cases h : 75 ≤ pct
    · simp only [classify_pass_fail, if_pos h]
      exact iff_of_false (by decide) (not_lt.mpr h)
    · rw [classify_pass_fail, if_neg h]
      exact iff_of_true rfl (lt_of_not_le h)

/-- C2: the dendrogram and statistics files are routed to the Pass output
directories exactly when the percentage meets the 66 routing threshold and to
the Fail directories otherwise; in the band 66 ≤ pct < 75 the files are
routed to Pass while the report verdict is "fail", so the routing decision is
independent of the 75-threshold verdict. -/
theorem routing_uses_66_threshold (dir : String) (pct : ℚ) (name : String) :
    (66 ≤ pct → make_output_filenames dir pct name =
      (path_join dir ("Dendrograms/Pass/" ++ name ++ ".png"),
       path_join dir ("Statistics/Pass/" ++ name ++ ".txt")))
    ∧ (pct < 66 → make_output_filenames dir pct name =
      (path_join dir ("Dendrograms/Fail/" ++ name ++ ".png"),
       path_join dir ("Statistics/Fail/" ++ name ++ ".txt")))
    ∧ (66 ≤ pct → pct < 75 → classify_pass_fail pct = "fail"
        ∧ make_output_filenames dir pct name =
          (path_join dir ("Dendrograms/Pass/" ++ name ++ ".png"),
           path_join dir ("Statistics/Pass/" ++ name ++ ".txt"))) := by
  refine ⟨?_, ?_, ?_⟩
  · intro h
    rw [make_output_filenames, if_pos h]
  · intro h
    rw [make_output_filenames, if_neg (not_le.mpr h)]
  · intro h66 h75
    exact ⟨by rw [classify_pass_fail, if_neg (not_le.mpr h75)],
      by rw [make_output_filenames, if_pos h66]⟩

/-- Witness for C2 at pct = 70: routed to the Pass directories while the
report verdict is "fail". -/
theorem routing_uses_66_threshold_witness :
    make_output_filenames "out" 70 "abc"
      = ("out/Dendrograms/Pass/abc.png", "out/Statistics/Pass/abc.txt")
    ∧ classify_pass_fail 70 = "fail" := by
  have h := (routing_uses_66_threshold "out" 70 "abc").2.2
    (by norm_num) (by norm_num)
  exact ⟨by rw [h.2]; rfl, h.1⟩

/-- C3 counterexample: for ScoreSet [0.9, 0.9, 0.1] the normalized distances
are [0, 0, 1] as claimed, but cutting at 0.7275 does not leave two clusters:
the pair at distance 0 merges first, after which the third leaf joins at
average distance (0 + 1)/2 = 1/2 ≤ 0.7275, so all three labels land in one
flat cluster, the largest-cluster percentage is 100 (not 66.7), and the
outputs are routed to the Pass directories (not Fail). -/
theorem example_routed_to_pass_not_fail :
    make_arrays [9/10, 9/10, 1/10] ["a", "b", "c"]
      = some ([0, 0, 1], ["a", "b", "c"])
    ∧ sch_fcluster (build_linkage_matrix [0, 0, 1] 3) (291/400) 3 = [4, 4, 4]
    ∧ (calculate_cluster_stats (build_linkage_matrix [0, 0, 1] 3)
        (291/400) 3).2 = 100
    ∧ (calculate_cluster_stats (build_linkage_matrix [0, 0, 1] 3)
        (291/400) 3).2 ≠ 200/3
    ∧ make_output_filenames "out"
        (calculate_cluster_stats (build_linkage_matrix [0, 0, 1] 3)
          (291/400) 3).2 "abc"
      = ("out/Dendrograms/Pass/abc.png", "out/Statistics/Pass/abc.txt") := by
  refine ⟨exampleArrays_eval, exampleFcluster_eval, ?_, ?_, ?_⟩
  · rw [exampleStats_eval]
  · rw [exampleStats_eval]
    norm_num
  · rw [exampleStats_eval, make_output_filenames, if_pos (by norm_num)]
    rfl

/-- C3 amended: for ScoreSet [0.9, 0.9, 0.1] (pair order ab, ac, bc) the
normalization yields distances [0, 0, 1]; cutting the merge tree at cutoff
0.7275 puts all three labels into a single cluster (the second merge happens
at average distance 0.5), the largest-cluster percentage is 100, and the
outputs for this label set are routed to the Pass output directories. -/
theorem example_single_cluster_routed_to_pass :
    make_arrays [9/10, 9/10, 1/10] ["a", "b", "c"]
      = some ([0, 0, 1], ["a", "b", "c"])
    ∧ build_linkage_matrix [0, 0, 1] 3 = [⟨0, 1, 0, 2⟩, ⟨2, 3, 1/2, 3⟩]
    ∧ sch_fcluster (build_linkage_matrix [0, 0, 1] 3) (291/400) 3 = [4, 4, 4]
    ∧ (calculate_cluster_stats (build_linkage_matrix [0, 0, 1] 3)
        (291/400) 3).2 = 100
    ∧ ∀ dir name : String, make_output_filenames dir
        (calculate_cluster_stats (build_linkage_matrix [0, 0, 1] 3)
          (291/400) 3).2 name
      = (path_join dir ("Dendrograms/Pass/" ++ name ++ ".png"),
         path_join dir ("Statistics/Pass/" ++ name ++ ".txt")) := by
  refine ⟨exampleArrays_eval, exampleLinkage_eval, exampleFcluster_eval,
    by rw [exampleStats_eval], ?_⟩
  intro dir name
  rw [exampleStats_eval, make_output_filenames, if_pos (by norm_num)]

/-- C4: when all scores of a nonempty ScoreSet are equal, the peak-to-peak
range is 0 and the normalization divides by zero; numpy would produce the
NaN 0/0 in every entry, modelled here as `none`: neither normalize_array nor
make_arrays returns well-defined numeric values for any element. -/
theorem constant_scores_normalize_none (scores : List ℚ)
    (labels : List String) (hne : scores ≠ [])
    (hconst : ∀ s ∈ scores, ∀ t ∈ scores, s = t) :
    normalize_array scores = none ∧ make_arrays scores labels = none := by
  have hptp : np_ptp scores = 0 := by
    cases scores with
    | nil => exact absurd rfl hne
    | cons h t =>
      have hall : ∀ x ∈ t, x = h := fun x hx =>
        hconst x (List.mem_cons_of_mem h hx) h (List.mem_cons_self h t)
      rw [np_ptp, listMin, listMax, foldl_min_const t h hall,
        foldl_max_const t h hall, sub_self]
  have h1 : normalize_array scores = none := by
    rw [normalize_array, if_neg (by simp [hne]), if_pos hptp]
  exact ⟨h1, by rw [make_arrays, h1]; rfl⟩

/-- Witness for C4: the constant ScoreSet [1, 1] makes both normalize_array
and make_arrays return the NaN outcome. -/
theorem constant_scores_normalize_none_witness :
    normalize_array [1, 1] = none
    ∧ make_arrays [1, 1] ["x", "y"] = none := by
  refine constant_scores_normalize_none [1, 1] ["x", "y"] (by simp) ?_
  intro s hs t ht
  simp only [List.mem_cons, List.not_mem_nil, or_false] at hs ht
  rcases hs with rfl | rfl <;> rcases ht with rfl | rfl <;> rfl

/-- C5: every merge record returned by build_linkage_matrix carries a
non-negative merge distance; the clamping pass rewrites any record whose
computed distance is below 0 to carry exactly 0 and leaves every other
record untouched. -/
theorem linkage_distances_clamped_nonneg (d : List ℚ) (n : ℕ) :
    (∀ r ∈ build_linkage_matrix d n, 0 ≤ r.dist)
    ∧ (∀ r : MergeRecord, r.dist < 0 →
        clampRecord r = ⟨r.idA, r.idB, 0, r.size⟩)
    ∧ (∀ r : MergeRecord, 0 ≤ r.dist → clampRecord r = r) := by
  refine ⟨?_, ?_, ?_⟩
  · intro r hr
    rw [build_linkage_matrix, List.mem_map] at hr
    obtain ⟨s, _, rfl⟩ := hr
    rw [clampRecord]
    by_cases h : s.dist < 0
    · rw [if_pos h]
    · rw [if_neg h]
      exact le_of_not_lt h
  · intro r h
    rw [clampRecord, if_pos h]
  · intro r h
    rw [clampRecord, if_neg (not_lt.mpr h)]

/-- Witness for C5: a record of the worked example's linkage matrix has a
non-negative distance, and a record with distance -1 is clamped to exactly
0 while a record with distance 1/2 is left unchanged. -/
theorem linkage_distances_clamped_nonneg_witness :
    (0 : ℚ) ≤ (MergeRecord.mk 2 3 (1/2) 3).dist
    ∧ clampRecord ⟨0, 0, -1, 2⟩ = ⟨0, 0, 0, 2⟩
    ∧ clampRecord ⟨2, 3, 1/2, 3⟩ = ⟨2, 3, 1/2, 3⟩ := by
  refine ⟨?_, ?_, ?_⟩
  · exact (linkage_distances_clamped_nonneg [0, 0, 1] 3).1 ⟨2, 3, 1/2, 3⟩
      (by rw [exampleLinkage_eval]; simp)
  · exact (linkage_distances_clamped_nonneg [] 0).2.1 ⟨0, 0, -1, 2⟩
      (by norm_num)
  · exact (linkage_distances_clamped_nonneg [] 0).2.2 ⟨2, 3, 1/2, 3⟩
      (by norm_num)

/-- C6: when a ScoreSet's length differs from n(n-1)/2 for its LabelSet of n
labels, the main loop produces for that label set only the skip message
naming the offending scores file (no linkage, statistics or output files),
and processing of every label set before and after it is unchanged. -/
theorem shape_mismatch_skips_and_continues (dir : String) (cutoff : ℚ)
    (pre post : List (String × String × List ℚ × List String))
    (file name : String) (scores : List ℚ) (labels : List String)
    (h : check_expected_distances_count labels ≠ scores.length) :
    mainLoop dir cutoff (pre ++ (file, name, scores, labels) :: post)
      = mainLoop dir cutoff pre
        ++ PairResult.skipped ("The number of values in the " ++ file
            ++ " distances list is " ++ toString scores.length
            ++ ", but it should be "
            ++ toString (check_expected_distances_count labels) ++ ".")
          :: mainLoop dir cutoff post := by
  induction pre with
  | nil =>
    simp only [List.nil_append, mainLoop, processPair, h, ne_eq,
      not_false_eq_true, if_true]
  | cons x xs ih =>
    obtain ⟨xf, xn, xs2, xl⟩ := x
    rw [List.cons_append, mainLoop, mainLoop, ih, List.cons_append]

/-- Witness for C6: a run over a mismatched label set (2 scores for 3
labels) followed by the worked example produces exactly the skip message for
the first pair and the routed output for the second. -/
theorem shape_mismatch_skips_and_continues_witness :
    mainLoop "out" (291/400)
        [("bad.txt", "bad", [1/2, 1/2], ["a", "b", "c"]),
         ("abc.txt", "abc", [9/10, 9/10, 1/10], ["a", "b", "c"])]
      = [PairResult.skipped ("The number of values in the " ++ "bad.txt"
            ++ " distances list is " ++ toString ([(1:ℚ)/2, 1/2].length)
            ++ ", but it should be "
            ++ toString (check_expected_distances_count ["a", "b", "c"])
            ++ "."),
         PairResult.written "out/Dendrograms/Pass/abc.png"
           "out/Statistics/Pass/abc.txt" 100] := by
  have h := shape_mismatch_skips_and_continues "out" (291/400) []
    [("abc.txt", "abc", [9/10, 9/10, 1/10], ["a", "b", "c"])]
    "bad.txt" "bad" [1/2, 1/2] ["a", "b", "c"]
    (by norm_num [check_expected_distances_count])
  have hnil : mainLoop "out" (291/400) [] = [] := rfl
  rw [hnil] at h
  rw [List.nil_append, List.nil_append] at h
  rw [h]
  have hgood : mainLoop "out" (291/400)
      [("abc.txt", "abc", [9/10, 9/10, 1/10], ["a", "b", "c"])]
      = [PairResult.written "out/Dendrograms/Pass/abc.png"
          "out/Statistics/Pass/abc.txt" 100] := by
    have hnorm : normalize_array [9/10, 9/10, 1/10] = some [1, 1, 0] := by
      norm_num [normalize_array, np_ptp, listMin, listMax, round6, round_eq]
    have hdist : List.map (fun v : ℚ => 1 - v)
        ((normalize_array [9/10, 9/10, 1/10]).getD []) = [0, 0, 1] := by
      rw [hnorm]
      norm_num
    have h3 : (["a", "b", "c"] : List String).length = 3 := rfl
    simp only [mainLoop, processPair]
    rw [if_neg (by norm_num [check_expected_distances_count])]
    rw [hdist, h3, exampleStats_eval]
    rw [make_output_filenames, if_pos (by norm_num)]
    rfl
  rw [hgood]

/-- C7: for every nonconstant ScoreSet, normalization succeeds and every
normalized value lies in [0, 1], and every corresponding distance
1 - normalized produced by make_arrays also lies in [0, 1]. -/
theorem nonconstant_normalized_values_in_unit_interval (scores : List ℚ)
    (labels : List String) (a b : ℚ) (ha : a ∈ scores) (hb : b ∈ scores)
    (hab : a ≠ b) :
    ∃ out, normalize_array scores = some out
      ∧ (∀ v ∈ out, 0 ≤ v ∧ v ≤ 1)
      ∧ make_arrays scores labels = some (out.map (fun v => 1 - v), labels)
      ∧ ∀ x ∈ out.map (fun v => 1 - v), 0 ≤ x ∧ x ≤ 1 := by
  have hlt := listMin_lt_listMax ha hb hab
  have hptp : 0 < np_ptp scores := by rw [np_ptp]; linarith
  have hne : scores ≠ [] := by
    intro hnil
    rw [hnil] at ha
    cases ha
  have hnorm : normalize_array scores = some (scores.map
      (fun s => round6 ((s - listMin scores) / np_ptp scores))) := by
    rw [normalize_array, if_neg (by simp [hne]), if_neg (ne_of_gt hptp)]
  have hbnd : ∀ v ∈ scores.map
      (fun s => round6 ((s - listMin scores) / np_ptp scores)),
      0 ≤ v ∧ v ≤ 1 := by
    intro v hv
    rw [List.mem_map] at hv
    obtain ⟨s, hs, rfl⟩ := hv
    have h0 : 0 ≤ (s - listMin scores) / np_ptp scores :=
      div_nonneg (by linarith [listMin_le hs]) (le_of_lt hptp)
    have h1 : (s - listMin scores) / np_ptp scores ≤ 1 := by
      rw [div_le_one hptp, np_ptp]
      linarith [le_listMax hs]
    exact ⟨round6_nonneg h0, round6_le_one h1⟩
  refine ⟨_, hnorm, hbnd, by rw [make_arrays, hnorm]; rfl, ?_⟩
  intro x hx
  rw [List.mem_map] at hx
  obtain ⟨v, hv, rfl⟩ := hx
  obtain ⟨hv0, hv1⟩ := hbnd v hv
  constructor <;> linarith

/-- Witness for C7 at the nonconstant ScoreSet [0.9, 0.9, 0.1]. -/
theorem nonconstant_normalized_values_in_unit_interval_witness :
    ∃ out, normalize_array [9/10, 9/10, 1/10] = some out
      ∧ (∀ v ∈ out, 0 ≤ v ∧ v ≤ 1)
      ∧ make_arrays [9/10, 9/10, 1/10] ["a", "b", "c"]
          = some (out.map (fun v => 1 - v), ["a", "b", "c"])
      ∧ ∀ x ∈ out.map (fun v => 1 - v), 0 ≤ x ∧ x ≤ 1 :=
  nonconstant_normalized_values_in_unit_interval [9/10, 9/10, 1/10]
    ["a", "b", "c"] (9/10) (1/10) (by simp) (by simp) (by norm_num)

/-- C8: for every DistanceSet of length n(n-1)/2 with n ≥ 2 labels, the
linkage matrix returned by build_linkage_matrix has exactly n - 1 merge
records, that is, its length plus 1 equals n. -/
theorem linkage_has_n_minus_one_merges (d : List ℚ) (n : ℕ)
    (hlen : d.length = n * (n - 1) / 2) (hn : 2 ≤ n) :
    (build_linkage_matrix d n).length = n - 1
    ∧ (build_linkage_matrix d n).length + 1 = n := by
  have h1 : (build_linkage_matrix d n).length = n - 1 := by
    rw [build_linkage_matrix, List.length_map, sch_linkage,
      agglomerate_length (n - 1) n (initClusters n)
        (by rw [initClusters, List.length_map, List.length_range]; omega)]
  exact ⟨h1, by omega⟩

/-- Witness for C8 at the worked example: 3 distances for 3 labels yield
exactly 2 merge records. -/
theorem linkage_has_n_minus_one_merges_witness :
    (build_linkage_matrix [0, 0, 1] 3).length = 2
    ∧ (build_linkage_matrix [0, 0, 1] 3).length + 1 = 3 :=
  linkage_has_n_minus_one_merges [0, 0, 1] 3 (by norm_num) (by norm_num)

/-- C9: the percentage computed by calculate_cluster_stats equals
100 * max(counts) / n: although the code divides the largest per-cluster
count by the sum of all counts, that sum is exactly n because the tree cut
assigns each of the n leaves to exactly one cluster. -/
theorem largest_cluster_pct_eq_max_over_n (Z : List MergeRecord)
    (cutoff : ℚ) (n : ℕ) :
    (calculate_cluster_stats Z cutoff n).1
      = cluster_membership_counts (sch_fcluster Z cutoff n)
    ∧ (calculate_cluster_stats Z cutoff n).2
      = 100 * ((((cluster_membership_counts
          (sch_fcluster Z cutoff n)).map
            (fun kv => (kv.2 : ℚ))).foldl max 0) / (n : ℚ)) := by
  refine ⟨rfl, ?_⟩
  have hsumN : ((cluster_membership_counts (sch_fcluster Z cutoff n)).map
      (fun kv => kv.2)).sum = n := by
    rw [cluster_membership_counts, List.map_map]
    rw [show ((fun kv : ℕ × ℕ => kv.2) ∘ fun v =>
        (v, (sch_fcluster Z cutoff n).count v))
      = fun v => (sch_fcluster Z cutoff n).count v from rfl]
    rw [List.sum_map_count_dedup_eq_length, sch_fcluster,
      replayMerges_length, List.length_range]
  have hsum : ((cluster_membership_counts (sch_fcluster Z cutoff n)).map
      (fun kv => (kv.2 : ℚ))).sum = (n : ℚ) := by
    rw [show (fun kv : ℕ × ℕ => (kv.2 : ℚ))
        = (fun m : ℕ => (m : ℚ)) ∘ (fun kv : ℕ × ℕ => kv.2) from rfl,
      ← List.map_map, ← Nat.cast_list_sum, hsumN]
  have h0 : (calculate_cluster_stats Z cutoff n).2
      = 100 * ((((cluster_membership_counts
          (sch_fcluster Z cutoff n)).map
            (fun kv => (kv.2 : ℚ))).foldl max 0)
          / (((cluster_membership_counts (sch_fcluster Z cutoff n)).map
            (fun kv => (kv.2 : ℚ))).sum)) := rfl
  rw [h0, hsum]

/-- C10: for every nonconstant ScoreSet, the distances produced by
make_arrays attain both endpoints exactly: every position holding the
maximum score maps to distance exactly 0 and every position holding the
minimum score maps to distance exactly 1, because the 6-decimal rounding is
applied to the normalized score before the inversion 1 - normalized. -/
theorem extreme_scores_attain_endpoint_distances (scores : List ℚ)
    (labels : List String) (a b : ℚ) (ha : a ∈ scores) (hb : b ∈ scores)
    (hab : a ≠ b) :
    ∃ out, make_arrays scores labels = some (out, labels)
      ∧ out.length = scores.length
      ∧ ∀ i : ℕ,
          (scores[i]? = some (listMax scores) → out[i]? = some 0)
          ∧ (scores[i]? = some (listMin scores) → out[i]? = some 1) := by
  have hlt := listMin_lt_listMax ha hb hab
  have hptp : 0 < np_ptp scores := by rw [np_ptp]; linarith
  have hne : scores ≠ [] := by
    intro hnil
    rw [hnil] at ha
    cases ha
  have hnorm : normalize_array scores = some (scores.map
      (fun s => round6 ((s - listMin scores) / np_ptp scores))) := by
    rw [normalize_array, if_neg (by simp [hne]), if_neg (ne_of_gt hptp)]
  refine ⟨(scores.map (fun s => round6 ((s - listMin scores)
      / np_ptp scores))).map (fun v => 1 - v),
    by rw [make_arrays, hnorm]; rfl,
    by rw [List.length_map, List.length_map], ?_⟩
  intro i
  constructor
  · intro hmax
    rw [List.getElem?_map, List.getElem?_map, hmax]
    have hval : (listMax scores - listMin scores) / np_ptp scores = 1 := by
      rw [np_ptp]
      exact div_self (by linarith)
    rw [Option.map_some', Option.map_some', hval, round6_one]
    norm_num
  · intro hmin
    rw [List.getElem?_map, List.getElem?_map, hmin]
    rw [Option.map_some', Option.map_some', sub_self, zero_div, round6_zero]
    norm_num

/-- Witness for C10 at the ScoreSet [0.9, 0.9, 0.1]. -/
theorem extreme_scores_attain_endpoint_distances_witness :
    ∃ out, make_arrays [9/10, 9/10, 1/10] ["a", "b", "c"]
        = some (out, ["a", "b", "c"])
      ∧ out.length = ([(9:ℚ)/10, 9/10, 1/10] : List ℚ).length
      ∧ ∀ i : ℕ,
          (([(9:ℚ)/10, 9/10, 1/10] : List ℚ)[i]?
              = some (listMax [9/10, 9/10, 1/10]) → out[i]? = some 0)
          ∧ (([(9:ℚ)/10, 9/10, 1/10] : List ℚ)[i]?
              = some (listMin [9/10, 9/10, 1/10]) → out[i]? = some 1) :=
  extreme_scores_attain_endpoint_distances [9/10, 9/10, 1/10]
    ["a", "b", "c"] (9/10) (1/10) (by simp) (by simp) (by norm_num)

end FreeRes
